import Mathlib

/-!
Verification of the wct repository core: the declarative tmux session
command compiler (src/services/setup.ts, src/services/tmux.ts) and the
VS Code workspace-state transplantation engine
(src/services/vscode-workspace.ts).

Each definition is a shallow embedding of the corresponding TypeScript
function; theorems check the natural-language specification against it.
-/

namespace Wct

/-! ## Tmux command compiler data model (src/config/schema.ts) -/

/-- The closed set of compiled command tags, from the `TmuxCommand` interface
in src/services/setup.ts (the tmux.ts variant uses the same set minus
`set-environment`, which it simply never emits). -/
inductive TmuxCommandType where
  | newSession
  | newWindow
  | splitWindow
  | setEnvironment
  | sendKeys
  | selectLayout
  | selectWindow
deriving DecidableEq, Repr

/-- A compiled command: a tag plus an ordered argument list. -/
structure TmuxCommand where
  type : TmuxCommandType
  args : List String
deriving DecidableEq, Repr

/-- Pane declaration (`TmuxPane` in src/config/schema.ts). -/
structure TmuxPane where
  name : Option String
  command : Option String
deriving DecidableEq, Repr

/-- Split orientation union type from the schema. -/
inductive SplitDir where
  | horizontal
  | vertical
deriving DecidableEq, Repr

/-- Window declaration (`TmuxWindow` in src/config/schema.ts).  `layout`
holds one of the five preset names; it is kept as a plain string here. -/
structure TmuxWindow where
  name : String
  command : Option String
  split : Option SplitDir
  layout : Option String
  panes : Option (List TmuxPane)
deriving DecidableEq, Repr

/-- The `-h` / `-v` flag chosen from the split orientation
(`split === "horizontal" ? "-h" : "-v"`). -/
def splitFlagOf : SplitDir → String
  | .horizontal => "-h"
  | .vertical => "-v"

/-- Environment variables, modelled as an ordered association list (the
TypeScript `WctEnv` record iterated with `Object.entries`). -/
abbrev WctEnv := List (String × String)

/-- `buildEnvOptionArgs` from src/services/setup.ts: repeated
`-e KEY=VALUE` option pairs; empty when no env record is given. -/
def buildEnvOptionArgs (env : Option WctEnv) : List String :=
  match env with
  | none => []
  | some l => l.flatMap (fun kv => ["-e", kv.1 ++ "=" ++ kv.2])

namespace Setup

/-- `buildWindowPaneCommands` from src/services/setup.ts: the per-window
pane program.  Zero panes: a single `send-keys` when the window declares a
direct command, else nothing.  Otherwise: optional `send-keys` for pane 0,
then per further pane a `split-window` (with env args) and an optional
`send-keys`, then one `select-layout` iff more than one pane. -/
def buildWindowPaneCommands (windowTarget workingDir : String)
    (w : TmuxWindow) (envOptionArgs : List String) : List TmuxCommand :=
  let panes := w.panes.getD []
  let split := w.split.getD SplitDir.horizontal
  match panes with
  | [] =>
    match w.command with
    | some c => [⟨.sendKeys, ["-t", windowTarget, c, "Enter"]⟩]
    | none => []
  | firstPane :: restPanes =>
    (match firstPane.command with
     | some c => [⟨.sendKeys, ["-t", windowTarget, c, "Enter"]⟩]
     | none => [])
    ++ restPanes.flatMap (fun pane =>
        ⟨.splitWindow, [splitFlagOf split, "-t", windowTarget]
            ++ envOptionArgs ++ ["-c", workingDir]⟩ ::
        (match pane.command with
         | some c => [⟨.sendKeys, ["-t", windowTarget, c, "Enter"]⟩]
         | none => []))
    ++ (if (firstPane :: restPanes).length > 1 then
          [⟨.selectLayout, ["-t", windowTarget, w.layout.getD "tiled"]⟩]
        else [])

/-- `buildWindowsPaneCommands` from src/services/setup.ts: the full session
plan.  Empty window list: one `new-session` plus one `set-environment`
per variable.  Otherwise: `new-session` naming the first window, the
session-level `set-environment` commands, the first window pane program,
then per remaining window a `new-window` plus its pane program, and a
final `select-window` targeting the first window. -/
def buildWindowsPaneCommands (sessionName workingDir : String)
    (windows : List TmuxWindow) (env : Option WctEnv) : List TmuxCommand :=
  let envVars := env.getD []
  let envOptionArgs := buildEnvOptionArgs env
  match windows with
  | [] =>
    ⟨.newSession, ["-d", "-s", sessionName] ++ envOptionArgs
        ++ ["-c", workingDir]⟩ ::
    envVars.map (fun kv => ⟨.setEnvironment, ["-t", sessionName, kv.1, kv.2]⟩)
  | firstWindow :: restWindows =>
    ⟨.newSession, ["-d", "-s", sessionName] ++ envOptionArgs
        ++ ["-n", firstWindow.name, "-c", workingDir]⟩ ::
    (envVars.map (fun kv => ⟨.setEnvironment, ["-t", sessionName, kv.1, kv.2]⟩)
     ++ buildWindowPaneCommands (sessionName ++ ":" ++ firstWindow.name)
          workingDir firstWindow envOptionArgs
     ++ restWindows.flatMap (fun w =>
          ⟨.newWindow, ["-t", sessionName] ++ envOptionArgs
              ++ ["-n", w.name, "-c", workingDir]⟩ ::
          buildWindowPaneCommands (sessionName ++ ":" ++ w.name)
            workingDir w envOptionArgs)
     ++ [⟨.selectWindow, ["-t", sessionName ++ ":" ++ firstWindow.name]⟩])

end Setup

namespace TmuxSvc

/-- `buildWindowPaneCommands` from src/services/tmux.ts: identical to the
setup.ts variant except that no env option args are threaded through. -/
def buildWindowPaneCommands (windowTarget workingDir : String)
    (w : TmuxWindow) : List TmuxCommand :=
  let panes := w.panes.getD []
  let split := w.split.getD SplitDir.horizontal
  match panes with
  | [] =>
    match w.command with
    | some c => [⟨.sendKeys, ["-t", windowTarget, c, "Enter"]⟩]
    | none => []
  | firstPane :: restPanes =>
    (match firstPane.command with
     | some c => [⟨.sendKeys, ["-t", windowTarget, c, "Enter"]⟩]
     | none => [])
    ++ restPanes.flatMap (fun pane =>
        ⟨.splitWindow, [splitFlagOf split, "-t", windowTarget, "-c", workingDir]⟩ ::
        (match pane.command with
         | some c => [⟨.sendKeys, ["-t", windowTarget, c, "Enter"]⟩]
         | none => []))
    ++ (if (firstPane :: restPanes).length > 1 then
          [⟨.selectLayout, ["-t", windowTarget, w.layout.getD "tiled"]⟩]
        else [])

/-- `buildWindowsPaneCommands` from src/services/tmux.ts: no env handling,
no `set-environment` commands; otherwise the same plan shape. -/
def buildWindowsPaneCommands (sessionName workingDir : String)
    (windows : List TmuxWindow) : List TmuxCommand :=
  match windows with
  | [] =>
    [⟨.newSession, ["-d", "-s", sessionName, "-c", workingDir]⟩]
  | firstWindow :: restWindows =>
    ⟨.newSession, ["-d", "-s", sessionName, "-n", firstWindow.name,
        "-c", workingDir]⟩ ::
    (buildWindowPaneCommands (sessionName ++ ":" ++ firstWindow.name)
        workingDir firstWindow
     ++ restWindows.flatMap (fun w =>
          ⟨.newWindow, ["-t", sessionName, "-n", w.name, "-c", workingDir]⟩ ::
          buildWindowPaneCommands (sessionName ++ ":" ++ w.name) workingDir w)
     ++ [⟨.selectWindow, ["-t", sessionName ++ ":" ++ firstWindow.name]⟩])

end TmuxSvc

/-- Number of commands of a given tag in a sequence. -/
def countType (t : TmuxCommandType) (cs : List TmuxCommand) : Nat :=
  cs.countP (fun c => c.type == t)

theorem countType_nil (t : TmuxCommandType) : countType t [] = 0 := rfl

theorem countType_append (t : TmuxCommandType) (a b : List TmuxCommand) :
    countType t (a ++ b) = countType t a + countType t b :=
  List.countP_append _ _ _

theorem countType_flatMap_zero {α : Type} (t : TmuxCommandType)
    (F : α → List TmuxCommand) (l : List α)
    (h : ∀ a, countType t (F a) = 0) :
    countType t (l.flatMap F) = 0 := by
  induction l with
  | nil => rfl
  | cons a l ih =>
    simp only [List.flatMap_cons, countType_append, ih, h a]

theorem countType_map_zero {α : Type} (t : TmuxCommandType)
    (f : α → TmuxCommand) (l : List α) (h : ∀ a, (f a).type ≠ t) :
    countType t (l.map f) = 0 := by
  induction l with
  | nil => rfl
  | cons a l ih =>
    simp only [List.map_cons, countType, List.countP_cons]
    simp only [countType] at ih
    simp [ih, h a]

theorem countType_cons (t : TmuxCommandType) (c : TmuxCommand)
    (cs : List TmuxCommand) :
    countType t (c :: cs) =
      countType t cs + (if c.type = t then 1 else 0) := by
  simp only [countType, List.countP_cons, beq_iff_eq]

/-- The per-window pane program never contains a `new-session`,
`new-window`, `set-environment` or `select-window` command: every command
it emits is a `send-keys`, `split-window` or `select-layout`. -/
theorem setup_pane_cmd_types (windowTarget workingDir : String)
    (w : TmuxWindow) (envOptionArgs : List String) (t : TmuxCommandType)
    (ht1 : t ≠ .sendKeys) (ht2 : t ≠ .splitWindow) (ht3 : t ≠ .selectLayout) :
    countType t (Setup.buildWindowPaneCommands windowTarget workingDir w
      envOptionArgs) = 0 := by
  have hcmd : ∀ oc : Option String, countType t (match oc with
      | some c => [(⟨.sendKeys, ["-t", windowTarget, c, "Enter"]⟩ : TmuxCommand)]
      | none => []) = 0 := by
    intro oc
    cases oc <;> simp [countType, List.countP_cons, ht1.symm]
  cases hp : w.panes.getD [] with
  | nil =>
    simp only [Setup.buildWindowPaneCommands, hp]
    exact hcmd w.command
  | cons firstPane restPanes =>
    have hflat : countType t (restPanes.flatMap (fun pane =>
        (⟨.splitWindow, [splitFlagOf (w.split.getD SplitDir.horizontal), "-t",
            windowTarget] ++ envOptionArgs ++ ["-c", workingDir]⟩ :
          TmuxCommand) ::
        (match pane.command with
         | some c => [⟨.sendKeys, ["-t", windowTarget, c, "Enter"]⟩]
         | none => []))) = 0 := by
      apply countType_flatMap_zero
      intro p
      rw [countType_cons, hcmd p.command]
      simp [ht2.symm]
    have hite : countType t (if (firstPane :: restPanes).length > 1 then
        [(⟨.selectLayout, ["-t", windowTarget, w.layout.getD "tiled"]⟩ :
          TmuxCommand)] else []) = 0 := by
      by_cases h : (firstPane :: restPanes).length > 1 <;>
        simp [h, countType, List.countP_cons, ht3.symm]
    simp only [Setup.buildWindowPaneCommands, hp, countType_append,
      hcmd firstPane.command, hflat, hite]

theorem tmuxsvc_pane_eq_setup (windowTarget workingDir : String)
    (w : TmuxWindow) :
    TmuxSvc.buildWindowPaneCommands windowTarget workingDir w =
      Setup.buildWindowPaneCommands windowTarget workingDir w [] := by
  unfold TmuxSvc.buildWindowPaneCommands Setup.buildWindowPaneCommands
  cases w.panes.getD [] with
  | nil => rfl
  | cons firstPane restPanes => simp

theorem tmuxsvc_windows_eq_setup (sessionName workingDir : String)
    (windows : List TmuxWindow) :
    TmuxSvc.buildWindowsPaneCommands sessionName workingDir windows =
      Setup.buildWindowsPaneCommands sessionName workingDir windows none := by
  unfold TmuxSvc.buildWindowsPaneCommands Setup.buildWindowsPaneCommands
  cases windows with
  | nil => simp [buildEnvOptionArgs]
  | cons w rest =>
    simp [buildEnvOptionArgs, tmuxsvc_pane_eq_setup]

/-- Commands of the block that `buildWindowsPaneCommands` appends for each
window after the first: one `new-window` followed by that window's pane
program. -/
def windowBlock (sessionName workingDir : String)
    (envOptionArgs : List String) (w : TmuxWindow) : List TmuxCommand :=
  ⟨.newWindow, ["-t", sessionName] ++ envOptionArgs
      ++ ["-n", w.name, "-c", workingDir]⟩ ::
  Setup.buildWindowPaneCommands (sessionName ++ ":" ++ w.name)
    workingDir w envOptionArgs

theorem countType_windowBlock_zero (s d : String) (e : List String)
    (w : TmuxWindow) (t : TmuxCommandType)
    (ht0 : t ≠ .newWindow) (ht1 : t ≠ .sendKeys) (ht2 : t ≠ .splitWindow)
    (ht3 : t ≠ .selectLayout) :
    countType t (windowBlock s d e w) = 0 := by
  rw [windowBlock, countType_cons,
    setup_pane_cmd_types _ _ _ _ _ ht1 ht2 ht3]
  simp [ht0.symm]

/-- C1: the compiled plan begins with exactly one `new-session`; it has at
most one `select-window`, present exactly when at least one window was
declared, and in that case the `select-window` is the final command and
targets the first window (`session:firstWindowName`).  The final conjunct
transfers every statement to the tmux.ts variant of the compiler, which
emits the same plan as the setup.ts variant with no environment. -/
theorem buildWindowsPaneCommands_structure (s d : String)
    (ws : List TmuxWindow) (env : Option WctEnv) :
    (∃ c restL, Setup.buildWindowsPaneCommands s d ws env = c :: restL ∧
        c.type = .newSession ∧ countType .newSession restL = 0) ∧
    countType .selectWindow (Setup.buildWindowsPaneCommands s d ws env) ≤ 1 ∧
    (countType .selectWindow (Setup.buildWindowsPaneCommands s d ws env) = 1 ↔
      ws ≠ []) ∧
    (∀ w restW, ws = w :: restW →
      ∃ initL, Setup.buildWindowsPaneCommands s d ws env =
          initL ++ [⟨.selectWindow, ["-t", s ++ ":" ++ w.name]⟩] ∧
        countType .selectWindow initL = 0) ∧
    (∀ ws' : List TmuxWindow, TmuxSvc.buildWindowsPaneCommands s d ws' =
        Setup.buildWindowsPaneCommands s d ws' none) := by
  have henv : ∀ t, t ≠ TmuxCommandType.setEnvironment →
      countType t ((env.getD []).map
        (fun kv => (⟨.setEnvironment, ["-t", s, kv.1, kv.2]⟩ : TmuxCommand))) =
      0 := by
    intro t ht
    exact countType_map_zero _ _ _ (fun a => by simpa using ht.symm)
  cases ws with
  | nil =>
    refine ⟨⟨_, _, rfl, rfl, henv _ (by simp)⟩, ?_, ?_, ?_, ?_⟩
    · rw [Setup.buildWindowsPaneCommands, countType_cons, henv _ (by simp)]
      simp
    · rw [Setup.buildWindowsPaneCommands, countType_cons, henv _ (by simp)]
      simp
    · intro w restW h
      exact absurd h (by simp)
    · exact fun ws' => tmuxsvc_windows_eq_setup s d ws'
  | cons first restWs =>
    have hpane : ∀ t, t ≠ TmuxCommandType.sendKeys →
        t ≠ TmuxCommandType.splitWindow → t ≠ TmuxCommandType.selectLayout →
        ∀ w : TmuxWindow,
        countType t (Setup.buildWindowPaneCommands (s ++ ":" ++ w.name) d w
          (buildEnvOptionArgs env)) = 0 :=
      fun t h1 h2 h3 w => setup_pane_cmd_types _ _ _ _ _ h1 h2 h3
    have hflat : ∀ t, t ≠ TmuxCommandType.newWindow →
        t ≠ TmuxCommandType.sendKeys → t ≠ TmuxCommandType.splitWindow →
        t ≠ TmuxCommandType.selectLayout →
        countType t (restWs.flatMap (fun w =>
          (⟨.newWindow, ["-t", s] ++ buildEnvOptionArgs env
              ++ ["-n", w.name, "-c", d]⟩ : TmuxCommand) ::
          Setup.buildWindowPaneCommands (s ++ ":" ++ w.name) d w
            (buildEnvOptionArgs env))) = 0 := by
      intro t h0 h1 h2 h3
      apply countType_flatMap_zero
      intro w
      rw [countType_cons, setup_pane_cmd_types _ _ _ _ _ h1 h2 h3]
      simp [h0.symm]
    have hns : countType TmuxCommandType.newSession
        (Setup.buildWindowsPaneCommands s d (first :: restWs) env) = 1 := by
      rw [Setup.buildWindowsPaneCommands]
      simp only [countType_cons, countType_append]
      rw [henv _ (by simp), hpane _ (by simp) (by simp) (by simp),
        hflat _ (by simp) (by simp) (by simp) (by simp)]
      simp [countType, List.countP_cons]
    have hsel : countType TmuxCommandType.selectWindow
        (Setup.buildWindowsPaneCommands s d (first :: restWs) env) = 1 := by
      rw [Setup.buildWindowsPaneCommands]
      simp only [countType_cons, countType_append]
      rw [henv _ (by simp), hpane _ (by simp) (by simp) (by simp),
        hflat _ (by simp) (by simp) (by simp) (by simp)]
      simp [countType, List.countP_cons]
    refine ⟨?_, ?_, ?_, ?_, fun ws' => tmuxsvc_windows_eq_setup s d ws'⟩
    · refine ⟨_, _, rfl, rfl, ?_⟩
      have := hns
      rw [Setup.buildWindowsPaneCommands] at this
      rw [countType_cons] at this
      simpa using this
    · rw [hsel]
    · rw [hsel]
      simp
    · intro w restW h
      injection h with h1 h2
      subst h1
      subst h2
      refine ⟨(⟨.newSession, ["-d", "-s", s] ++ buildEnvOptionArgs env
          ++ ["-n", first.name, "-c", d]⟩ : TmuxCommand) ::
        ((env.getD []).map
          (fun kv => (⟨.setEnvironment, ["-t", s, kv.1, kv.2]⟩ : TmuxCommand))
         ++ Setup.buildWindowPaneCommands (s ++ ":" ++ first.name) d first
             (buildEnvOptionArgs env)
         ++ restWs.flatMap (fun w' =>
             (⟨.newWindow, ["-t", s] ++ buildEnvOptionArgs env
                 ++ ["-n", w'.name, "-c", d]⟩ : TmuxCommand) ::
             Setup.buildWindowPaneCommands (s ++ ":" ++ w'.name) d w'
               (buildEnvOptionArgs env))), ?_, ?_⟩
      · rw [Setup.buildWindowsPaneCommands]
        simp
      · simp only [countType_cons, countType_append]
        rw [henv _ (by simp), hpane _ (by simp) (by simp) (by simp) first,
          hflat _ (by simp) (by simp) (by simp) (by simp)]
        simp

/-- Witness for C1 at a concrete plan: one window named dev, no env. -/
theorem buildWindowsPaneCommands_structure_instance :
    ∃ initL, Setup.buildWindowsPaneCommands "s" "/tmp"
        [⟨"dev", none, none, none, some [⟨none, some "run dev"⟩]⟩] none =
        initL ++ [⟨.selectWindow, ["-t", "s" ++ ":" ++ "dev"]⟩] ∧
      countType .selectWindow initL = 0 :=
  (buildWindowsPaneCommands_structure "s" "/tmp"
    [⟨"dev", none, none, none, some [⟨none, some "run dev"⟩]⟩]
    none).2.2.2.1 _ _ rfl

theorem countType_optSend_zero (t : TmuxCommandType) (wt : String)
    (oc : Option String) (ht : t ≠ .sendKeys) :
    countType t (match oc with
      | some c => [(⟨.sendKeys, ["-t", wt, c, "Enter"]⟩ : TmuxCommand)]
      | none => []) = 0 := by
  cases oc <;> simp [countType, List.countP_cons, ht.symm]

/-- C7: layout-omission rule.  A window with at most one declared pane gets
no `select-layout`; a window with two or more panes gets exactly one,
carrying the window layout preset (default tiled), as the final command of
that window's pane program — hence after all its `split-window` and
`send-keys` commands.  The third conjunct shows the whole plan is the
header, the contiguous per-window blocks in declaration order, and the
trailing `select-window`, so each window's `select-layout` also precedes
every command of the next window.  The last conjunct transfers the rule to
the tmux.ts variant. -/
theorem buildWindowPaneCommands_selectLayout_rule (t d : String)
    (w : TmuxWindow) (e : List String) :
    ((w.panes.getD []).length ≤ 1 →
      countType .selectLayout (Setup.buildWindowPaneCommands t d w e) = 0) ∧
    (2 ≤ (w.panes.getD []).length →
      ∃ cs, Setup.buildWindowPaneCommands t d w e =
          cs ++ [⟨.selectLayout, ["-t", t, w.layout.getD "tiled"]⟩] ∧
        countType .selectLayout cs = 0) ∧
    (∀ s (env : Option WctEnv) (first : TmuxWindow)
        (restWs : List TmuxWindow),
      Setup.buildWindowsPaneCommands s d (first :: restWs) env =
        ⟨.newSession, ["-d", "-s", s] ++ buildEnvOptionArgs env
            ++ ["-n", first.name, "-c", d]⟩ ::
        ((env.getD []).map
          (fun kv => (⟨.setEnvironment, ["-t", s, kv.1, kv.2]⟩ : TmuxCommand))
         ++ Setup.buildWindowPaneCommands (s ++ ":" ++ first.name) d first
             (buildEnvOptionArgs env)
         ++ restWs.flatMap (fun w' => windowBlock s d (buildEnvOptionArgs env) w')
         ++ [⟨.selectWindow, ["-t", s ++ ":" ++ first.name]⟩])) ∧
    (∀ wt : String, TmuxSvc.buildWindowPaneCommands wt d w =
        Setup.buildWindowPaneCommands wt d w []) := by
  refine ⟨?_, ?_, ?_, fun wt => tmuxsvc_pane_eq_setup wt d w⟩
  · intro hlen
    cases hp : w.panes.getD [] with
    | nil =>
      simp only [Setup.buildWindowPaneCommands, hp]
      exact countType_optSend_zero _ _ _ (by simp)
    | cons firstPane restPanes =>
      cases hr : restPanes with
      | cons q qs =>
        rw [hp, hr] at hlen
        simp at hlen
      | nil =>
        simp only [Setup.buildWindowPaneCommands, hp, hr]
        simp only [List.flatMap_nil, List.length_cons, List.length_nil]
        rw [if_neg (by omega)]
        simp only [List.append_nil]
        exact countType_optSend_zero _ _ _ (by simp)
  · intro hlen
    cases hp : w.panes.getD [] with
    | nil => rw [hp] at hlen; simp at hlen
    | cons firstPane restPanes =>
      refine ⟨(match firstPane.command with
          | some c => [(⟨.sendKeys, ["-t", t, c, "Enter"]⟩ : TmuxCommand)]
          | none => [])
        ++ restPanes.flatMap (fun pane =>
            (⟨.splitWindow, [splitFlagOf (w.split.getD SplitDir.horizontal),
                "-t", t] ++ e ++ ["-c", d]⟩ : TmuxCommand) ::
            (match pane.command with
             | some c => [(⟨.sendKeys, ["-t", t, c, "Enter"]⟩ : TmuxCommand)]
             | none => [])), ?_, ?_⟩
      · rw [hp] at hlen
        simp only [Setup.buildWindowPaneCommands, hp]
        rw [if_pos (by simpa using hlen)]
      · have hz : countType TmuxCommandType.selectLayout
            (restPanes.flatMap (fun pane =>
              (⟨.splitWindow, [splitFlagOf (w.split.getD SplitDir.horizontal),
                  "-t", t] ++ e ++ ["-c", d]⟩ : TmuxCommand) ::
              (match pane.command with
               | some c => [(⟨.sendKeys, ["-t", t, c, "Enter"]⟩ : TmuxCommand)]
               | none => []))) = 0 := by
          apply countType_flatMap_zero
          intro p
          rw [countType_cons, countType_optSend_zero _ _ _ (by simp)]
          simp
        rw [countType_append, countType_optSend_zero _ _ _ (by simp), hz]
  · intro s env first restWs
    rw [Setup.buildWindowsPaneCommands]
    simp only [windowBlock]

/-- Witness for C7 at a concrete two-pane window. -/
theorem buildWindowPaneCommands_selectLayout_rule_instance :
    ∃ cs, Setup.buildWindowPaneCommands "s:dev" "/tmp"
        ⟨"dev", none, none, none,
          some [⟨none, some "run dev"⟩, ⟨none, some "run watch"⟩]⟩ [] =
        cs ++ [⟨.selectLayout,
          ["-t", "s:dev",
            (TmuxWindow.layout ⟨"dev", none, none, none,
              some [⟨none, some "run dev"⟩,
                ⟨none, some "run watch"⟩]⟩).getD "tiled"]⟩] ∧
      countType .selectLayout cs = 0 :=
  (buildWindowPaneCommands_selectLayout_rule "s:dev" "/tmp"
    ⟨"dev", none, none, none,
      some [⟨none, some "run dev"⟩, ⟨none, some "run watch"⟩]⟩ []).2.1
    (by decide)

/-! ## Layout Tree pruning (filterEditorsInState in
src/services/vscode-workspace.ts) -/

/-- Models the embedded JSON value of an editor record, as seen through
`JSON.parse(editor.value)?.resourceJSON?.path` followed by the falsiness
check on the result: `malformed` stands for a value on which `JSON.parse`
throws; `parsed p` stands for a value that parses, with `p` the extracted
path when one is present and truthy (`parsed none` covers a missing,
null or empty `resourceJSON.path`). -/
inductive EditorValue where
  | malformed (raw : String)
  | parsed (path : Option String)
deriving DecidableEq, Repr

/-- `ISerializedEditorInput`: an identifier tag plus the opaque value. -/
structure SerializedEditorInput where
  id : String
  value : EditorValue
deriving DecidableEq, Repr

/-- `ISerializedEditorGroupModel`.  `gid` stands for the serialized group
id (and any other field outside the four the pass rewrites), which the
in-place mutation of the TypeScript object leaves untouched. -/
structure SerializedEditorGroupModel where
  gid : Option Nat
  editors : Option (List SerializedEditorInput)
  mru : Option (List Nat)
  preview : Option Nat
  sticky : Option Nat
deriving DecidableEq, Repr

mutual
/-- `ISerializedNode`: `type` is "leaf", "branch", or anything else
(`other` nodes are returned untouched by the walk, mirroring the early
return on unknown `type` strings). -/
inductive SerializedNode where
  | leaf (data : SerializedEditorGroupModel) (size : Option ℚ)
  | branch (children : SerializedNodeList) (size : Option ℚ)
  | other (tag : String) (size : Option ℚ)

/-- The ordered children of a branch node. -/
inductive SerializedNodeList where
  | nil
  | cons (head : SerializedNode) (tail : SerializedNodeList)
end

/-- The file-editor identifier tag, the only tag the pruning interprets. -/
def fileEditorInputId : String := "workbench.editors.files.fileEditorInput"

/-- One editor of a leaf group is kept iff it is not a file editor, or its
value does not yield a path, or the path exists on the (modelled)
filesystem `fsExists`. -/
def keepEditor (fsExists : String → Bool) (editor : SerializedEditorInput) :
    Bool :=
  if editor.id ≠ fileEditorInputId then true
  else
    match editor.value with
    | .malformed _ => true
    | .parsed none => true
    | .parsed (some p) => fsExists p

/-- The kept index list, in original order (the `keepIndices` array). -/
def keepIndicesOf (fsExists : String → Bool)
    (editors : List SerializedEditorInput) : List Nat :=
  (List.range editors.length).filter
    (fun i => (editors.get? i).any (keepEditor fsExists))

/-- The old-index to new-index partial map (the `oldToNew` Map): the
position of `i` inside the kept index list, when present. -/
def oldToNew (keepIndices : List Nat) (i : Nat) : Option Nat :=
  keepIndices.findIdx? (fun j => j == i)

/-- The leaf-group rewrite step of `filterEditorsInState`: computes the
kept indices, and when at least one editor is removed rewrites `editors`,
`mru`, `preview` and `sticky` exactly as the TypeScript does.  Returns the
rewritten group and the number of removed editors. -/
def filterGroup (fsExists : String → Bool)
    (group : SerializedEditorGroupModel) :
    SerializedEditorGroupModel × Nat :=
  let editors := group.editors.getD []
  let keepIndices := keepIndicesOf fsExists editors
  let removed := editors.length - keepIndices.length
  if removed = 0 then (group, 0)
  else
    ({ gid := group.gid
       editors := some (keepIndices.filterMap (fun i => editors.get? i))
       mru := group.mru.map (fun l =>
         (l.filter (fun i => (oldToNew keepIndices i).isSome)).map
           (fun i => (oldToNew keepIndices i).getD 0))
       preview := group.preview.bind (fun p => oldToNew keepIndices p)
       sticky := group.sticky.map (fun k =>
         (List.range k).countP
           (fun i => (oldToNew keepIndices i).isSome)) }, removed)

mutual
/-- The recursive `walkNode`: recurse through branch children, rewrite
leaf groups, pass through unknown node types; accumulates the removed
count. -/
def walkNode (fsExists : String → Bool) :
    SerializedNode → SerializedNode × Nat
  | .leaf data size =>
      let r := filterGroup fsExists data
      (.leaf r.1 size, r.2)
  | .branch children size =>
      let r := walkNodeList fsExists children
      (.branch r.1 size, r.2)
  | .other tag size => (.other tag size, 0)

/-- Walk every child of a branch in order. -/
def walkNodeList (fsExists : String → Bool) :
    SerializedNodeList → SerializedNodeList × Nat
  | .nil => (.nil, 0)
  | .cons h t =>
      let rh := walkNode fsExists h
      let rt := walkNodeList fsExists t
      (.cons rh.1 rt.1, rh.2 + rt.2)
end

/-- The serialized grid wrapper: root node plus dimension fields the pass
never touches. -/
structure SerializedGrid where
  root : Option SerializedNode
  width : ℚ
  height : ℚ
  orientation : ℚ

/-- The `editorpart.state` document: the grid plus the further top-level
fields (`activeGroup`, `mostRecentActiveGroups`) the pass never touches. -/
structure EditorPartState where
  serializedGrid : Option SerializedGrid
  activeGroup : Option Nat
  mostRecentActiveGroups : List Nat

/-- `filterEditorsInState`: walk `state.serializedGrid.root` when present;
otherwise nothing to do.  Returns the new state and total removed. -/
def filterEditorsInState (fsExists : String → Bool)
    (state : EditorPartState) : EditorPartState × Nat :=
  match state.serializedGrid with
  | none => (state, 0)
  | some grid =>
    match grid.root with
    | none => (state, 0)
    | some root =>
      let r := walkNode fsExists root
      ({ state with serializedGrid := some { grid with root := some r.1 } },
       r.2)

/-- Erases exactly the four leaf-group fields the pruning pass may
rewrite, keeping everything else (`gid` included). -/
def scrubGroup (g : SerializedEditorGroupModel) :
    SerializedEditorGroupModel :=
  { gid := g.gid, editors := none, mru := none, preview := none,
    sticky := none }

mutual
/-- Erase the rewritable group fields at every leaf of a node. -/
def scrubNode : SerializedNode → SerializedNode
  | .leaf data size => .leaf (scrubGroup data) size
  | .branch children size => .branch (scrubNodeList children) size
  | .other tag size => .other tag size

/-- Erase the rewritable group fields at every leaf of a forest. -/
def scrubNodeList : SerializedNodeList → SerializedNodeList
  | .nil => .nil
  | .cons h t => .cons (scrubNode h) (scrubNodeList t)
end

/-- Erase the rewritable group fields at the root of a grid. -/
def scrubGrid (g : SerializedGrid) : SerializedGrid :=
  { g with root := g.root.map scrubNode }

/-- Erase the rewritable group fields everywhere in a state document. -/
def scrubState (s : EditorPartState) : EditorPartState :=
  { s with serializedGrid := s.serializedGrid.map scrubGrid }

theorem oldToNew_isSome (keep : List Nat) (i : Nat) :
    (oldToNew keep i).isSome = decide (i ∈ keep) := by
  rw [oldToNew, List.findIdx?_isSome]
  induction keep with
  | nil => simp
  | cons a t ih =>
    simp only [List.any_cons, ih, List.mem_cons]
    by_cases h : a = i
    · simp [h]
    · have h' : i ≠ a := fun hh => h hh.symm
      simp [beq_iff_eq, h, h']

theorem oldToNew_cons (a : Nat) (t : List Nat) (i : Nat) :
    oldToNew (a :: t) i =
      if a == i then some 0 else (oldToNew t i).map (· + 1) := by
  rw [oldToNew, List.findIdx?_cons, List.findIdx?_succ]
  rfl

theorem oldToNew_map_self {keep : List Nat} (hnd : keep.Nodup) :
    keep.map (fun i => (oldToNew keep i).getD 0) =
      List.range keep.length := by
  induction keep with
  | nil => rfl
  | cons a t ih =>
    obtain ⟨ha, hnd'⟩ := List.nodup_cons.mp hnd
    have hfa : (oldToNew (a :: t) a).getD 0 = 0 := by
      rw [oldToNew_cons]
      simp
    have hrest : t.map (fun i => (oldToNew (a :: t) i).getD 0) =
        (t.map (fun i => (oldToNew t i).getD 0)).map Nat.succ := by
      rw [List.map_map]
      apply List.map_congr_left
      intro i hi
      have hne : ¬ (a == i) = true := by
        simp only [beq_iff_eq]
        intro h
        exact ha (h ▸ hi)
      have hsome : (oldToNew t i).isSome = true := by
        rw [oldToNew_isSome]
        simpa using hi
      obtain ⟨j, hj⟩ := Option.isSome_iff_exists.mp hsome
      simp [oldToNew_cons, hne, hj, Function.comp, Nat.succ_eq_add_one]
    rw [List.map_cons, hfa, hrest, ih hnd', List.length_cons,
      List.range_succ_eq_map]

theorem oldToNew_range (n i : Nat) (h : i < n) :
    oldToNew (List.range n) i = some i := by
  have hmap := @oldToNew_map_self (List.range n) (List.nodup_range n)
  rw [List.length_range] at hmap
  have hq : (List.map (fun j => (oldToNew (List.range n) j).getD 0)
      (List.range n)).get? i = (List.range n).get? i := by rw [hmap]
  rw [List.get?_map, List.get?_range h] at hq
  rw [Option.map_some'] at hq
  injection hq with hfi
  have hs : (oldToNew (List.range n) i).isSome = true := by
    rw [oldToNew_isSome]
    simp [List.mem_range, h]
  obtain ⟨j, hj⟩ := Option.isSome_iff_exists.mp hs
  simp only [hj, Option.getD_some] at hfi
  rw [hj, hfi]

theorem filter_of_length_eq {α : Type} (p : α → Bool) (l : List α)
    (h : (l.filter p).length = l.length) : l.filter p = l := by
  induction l with
  | nil => rfl
  | cons a t ih =>
    by_cases hp : p a
    · rw [List.filter_cons_of_pos hp] at h ⊢
      rw [ih (by simpa using h)]
    · rw [List.filter_cons_of_neg hp] at h
      have := List.length_filter_le p t
      simp [List.length_cons] at h
      omega

theorem keepIndicesOf_lt (fs : String → Bool)
    (editors : List SerializedEditorInput) :
    ∀ i ∈ keepIndicesOf fs editors, i < editors.length := fun i hi =>
  List.mem_range.mp (List.mem_filter.mp hi).1

theorem keepIndicesOf_nodup (fs : String → Bool)
    (editors : List SerializedEditorInput) :
    (keepIndicesOf fs editors).Nodup :=
  List.Nodup.filter _ (List.nodup_range _)

theorem filterMap_get?_length {α : Type} (l : List α) (keep : List Nat)
    (h : ∀ i ∈ keep, i < l.length) :
    (keep.filterMap (fun i => l.get? i)).length = keep.length := by
  induction keep with
  | nil => rfl
  | cons a t ih =>
    rw [List.filterMap_cons, List.get?_eq_get (h a (by simp))]
    simpa using ih (fun i hi => h i (by simp [hi]))

theorem keepIndices_filter_range (fs : String → Bool)
    (editors : List SerializedEditorInput) :
    (List.range editors.length).filter
        (fun i => (oldToNew (keepIndicesOf fs editors) i).isSome) =
      keepIndicesOf fs editors := by
  have h1 : (List.range editors.length).filter
      (fun i => (oldToNew (keepIndicesOf fs editors) i).isSome) =
      (List.range editors.length).filter
        (fun i => decide (i ∈ keepIndicesOf fs editors)) :=
    List.filter_congr (fun i _ => oldToNew_isSome _ i)
  rw [h1, keepIndicesOf]
  apply List.filter_congr
  intro i hi
  by_cases hq : ((editors.get? i).any (keepEditor fs)) = true <;>
    simp [List.mem_filter, hi, hq]

theorem filterGroup_of_none_removed (fs : String → Bool)
    (g : SerializedEditorGroupModel)
    (h : (g.editors.getD []).length -
        (keepIndicesOf fs (g.editors.getD [])).length = 0) :
    filterGroup fs g = (g, 0) := by
  simp only [filterGroup]
  rw [if_pos h]

theorem filterGroup_of_removed (fs : String → Bool)
    (g : SerializedEditorGroupModel)
    (h : ¬ ((g.editors.getD []).length -
        (keepIndicesOf fs (g.editors.getD [])).length = 0)) :
    filterGroup fs g =
      ({ gid := g.gid
         editors := some ((keepIndicesOf fs (g.editors.getD [])).filterMap
           (fun i => (g.editors.getD []).get? i))
         mru := g.mru.map (fun l =>
           (l.filter (fun i =>
             (oldToNew (keepIndicesOf fs (g.editors.getD [])) i).isSome)).map
             (fun i =>
               (oldToNew (keepIndicesOf fs (g.editors.getD [])) i).getD 0))
         preview := g.preview.bind
           (fun p => oldToNew (keepIndicesOf fs (g.editors.getD [])) p)
         sticky := g.sticky.map (fun k =>
           (List.range k).countP (fun i =>
             (oldToNew (keepIndicesOf fs (g.editors.getD [])) i).isSome)) },
       (g.editors.getD []).length -
         (keepIndicesOf fs (g.editors.getD [])).length) := by
  simp only [filterGroup]
  rw [if_neg h]

/-- C2: if a leaf group's mru list is a permutation of the editor indices
before pruning, then after pruning it is again a permutation of the new
editor indices; the new list is obtained by dropping removed indices and
remapping survivors through the old-to-new index map, preserving their
relative order.  The last conjunct anchors `filterGroup` as exactly the
leaf step of the recursive walk. -/
theorem filterGroup_mru_permutation (fs : String → Bool)
    (g : SerializedEditorGroupModel) (sz : Option ℚ) (m : List Nat)
    (hm : g.mru = some m)
    (hperm : m.Perm (List.range (g.editors.getD []).length)) :
    ∃ m', (filterGroup fs g).1.mru = some m' ∧
      m' = (m.filter (fun i =>
          (oldToNew (keepIndicesOf fs (g.editors.getD [])) i).isSome)).map
        (fun i => (oldToNew (keepIndicesOf fs (g.editors.getD [])) i).getD 0) ∧
      m'.Perm (List.range ((filterGroup fs g).1.editors.getD []).length) ∧
      walkNode fs (.leaf g sz) =
        (.leaf (filterGroup fs g).1 sz, (filterGroup fs g).2) := by
  have hwalk : walkNode fs (.leaf g sz) =
      (.leaf (filterGroup fs g).1 sz, (filterGroup fs g).2) := by
    simp [walkNode]
  have hfm : (m.filter (fun i =>
      (oldToNew (keepIndicesOf fs (g.editors.getD [])) i).isSome)).Perm
      (keepIndicesOf fs (g.editors.getD [])) := by
    have := List.Perm.filter (fun i =>
      (oldToNew (keepIndicesOf fs (g.editors.getD [])) i).isSome) hperm
    rwa [keepIndices_filter_range] at this
  by_cases h0 : (g.editors.getD []).length -
      (keepIndicesOf fs (g.editors.getD [])).length = 0
  · have hlen : (keepIndicesOf fs (g.editors.getD [])).length =
        (g.editors.getD []).length := by
      have hle : (keepIndicesOf fs (g.editors.getD [])).length ≤
          (g.editors.getD []).length := by
        have := List.length_filter_le
          (fun i => ((g.editors.getD []).get? i).any (keepEditor fs))
          (List.range (g.editors.getD []).length)
        simpa [keepIndicesOf] using this
      omega
    have hkr : keepIndicesOf fs (g.editors.getD []) =
        List.range (g.editors.getD []).length := by
      have := filter_of_length_eq
        (fun i => ((g.editors.getD []).get? i).any (keepEditor fs))
        (List.range (g.editors.getD []).length)
        (by simpa [keepIndicesOf, List.length_range] using hlen)
      simpa [keepIndicesOf] using this
    have hfg := filterGroup_of_none_removed fs g h0
    refine ⟨m, by rw [hfg]; exact hm, ?_, by rw [hfg]; exact hperm,
      hwalk⟩
    have hmem : ∀ i ∈ m, i < (g.editors.getD []).length := fun i hi =>
      List.mem_range.mp (hperm.mem_iff.mp hi)
    have hfilter : m.filter (fun i =>
        (oldToNew (keepIndicesOf fs (g.editors.getD [])) i).isSome) = m := by
      apply List.filter_eq_self.mpr
      intro i hi
      rw [hkr, oldToNew_range _ _ (hmem i hi)]
      rfl
    rw [hfilter]
    have hid : List.map (fun i =>
        (oldToNew (keepIndicesOf fs (g.editors.getD [])) i).getD 0) m =
        List.map id m := by
      apply List.map_congr_left
      intro i hi
      rw [hkr, oldToNew_range _ _ (hmem i hi)]
      rfl
    rw [hid, List.map_id]
  · have hfg := filterGroup_of_removed fs g h0
    refine ⟨_, by rw [hfg, hm]; rfl, rfl, ?_, hwalk⟩
    rw [hfg]
    simp only [Option.getD_some]
    rw [filterMap_get?_length _ _ (keepIndicesOf_lt fs _)]
    have hmap := List.Perm.map (fun i =>
      (oldToNew (keepIndicesOf fs (g.editors.getD [])) i).getD 0) hfm
    rwa [oldToNew_map_self (keepIndicesOf_nodup fs _)] at hmap

/-- Witness for C2: a group with one missing and one kept file editor and
mru reversed. -/
theorem filterGroup_mru_permutation_instance :
    ∃ m', (filterGroup (fun p => p == "/x")
        { gid := some 3,
          editors := some [⟨fileEditorInputId, .parsed (some "/gone")⟩,
                           ⟨fileEditorInputId, .parsed (some "/x")⟩],
          mru := some [1, 0], preview := some 1, sticky := none }).1.mru =
        some m' ∧
      m' = (([1, 0] : List Nat).filter (fun i =>
          (oldToNew (keepIndicesOf (fun p => p == "/x")
            [⟨fileEditorInputId, .parsed (some "/gone")⟩,
             ⟨fileEditorInputId, .parsed (some "/x")⟩]) i).isSome)).map
        (fun i => (oldToNew (keepIndicesOf (fun p => p == "/x")
            [⟨fileEditorInputId, .parsed (some "/gone")⟩,
             ⟨fileEditorInputId, .parsed (some "/x")⟩]) i).getD 0) ∧
      m'.Perm (List.range ((filterGroup (fun p => p == "/x")
        { gid := some 3,
          editors := some [⟨fileEditorInputId, .parsed (some "/gone")⟩,
                           ⟨fileEditorInputId, .parsed (some "/x")⟩],
          mru := some [1, 0], preview := some 1,
          sticky := none }).1.editors.getD []).length) ∧
      walkNode (fun p => p == "/x") (.leaf
        { gid := some 3,
          editors := some [⟨fileEditorInputId, .parsed (some "/gone")⟩,
                           ⟨fileEditorInputId, .parsed (some "/x")⟩],
          mru := some [1, 0], preview := some 1, sticky := none } none) =
        (.leaf (filterGroup (fun p => p == "/x")
          { gid := some 3,
            editors := some [⟨fileEditorInputId, .parsed (some "/gone")⟩,
                             ⟨fileEditorInputId, .parsed (some "/x")⟩],
            mru := some [1, 0], preview := some 1, sticky := none }).1 none,
         (filterGroup (fun p => p == "/x")
          { gid := some 3,
            editors := some [⟨fileEditorInputId, .parsed (some "/gone")⟩,
                             ⟨fileEditorInputId, .parsed (some "/x")⟩],
            mru := some [1, 0], preview := some 1, sticky := none }).2) :=
  filterGroup_mru_permutation (fun p => p == "/x")
    { gid := some 3,
      editors := some [⟨fileEditorInputId, .parsed (some "/gone")⟩,
                       ⟨fileEditorInputId, .parsed (some "/x")⟩],
      mru := some [1, 0], preview := some 1, sticky := none }
    none [1, 0] rfl (by decide)

/-- The removed editor indices (complement of the kept index list inside
the editor index range). -/
def removedIndicesOf (fsExists : String → Bool)
    (editors : List SerializedEditorInput) : List Nat :=
  (List.range editors.length).filter
    (fun i => !((editors.get? i).any (keepEditor fsExists)))

/-- C3: when a sticky count k is present (and, per the data-model
invariant, bounded by the editor count), the pruned sticky field equals
the number of indices in [0,k) that are in the kept-index set, which the
second conjunct identifies with the cardinality of {0,...,k-1} minus the
removed-index set R: a recomputation under filtering, not a decrement. -/
theorem filterGroup_sticky_count (fs : String → Bool)
    (g : SerializedEditorGroupModel) (k : Nat)
    (hs : g.sticky = some k)
    (hk : k ≤ (g.editors.getD []).length) :
    (filterGroup fs g).1.sticky =
      some ((List.range k).countP
        (fun i => decide (i ∈ keepIndicesOf fs (g.editors.getD [])))) ∧
    (List.range k).countP
        (fun i => decide (i ∈ keepIndicesOf fs (g.editors.getD []))) =
      ((List.range k).filter
        (fun i => decide (i ∉ removedIndicesOf fs (g.editors.getD [])))).length := by
  constructor
  · by_cases h0 : (g.editors.getD []).length -
        (keepIndicesOf fs (g.editors.getD [])).length = 0
    · rw [filterGroup_of_none_removed fs g h0]
      simp only [hs]
      congr 1
      have hlen : (keepIndicesOf fs (g.editors.getD [])).length =
          (g.editors.getD []).length := by
        have hle : (keepIndicesOf fs (g.editors.getD [])).length ≤
            (g.editors.getD []).length := by
          have := List.length_filter_le
            (fun i => ((g.editors.getD []).get? i).any (keepEditor fs))
            (List.range (g.editors.getD []).length)
          simpa [keepIndicesOf] using this
        omega
      have hkr : keepIndicesOf fs (g.editors.getD []) =
          List.range (g.editors.getD []).length := by
        have := filter_of_length_eq
          (fun i => ((g.editors.getD []).get? i).any (keepEditor fs))
          (List.range (g.editors.getD []).length)
          (by simpa [keepIndicesOf, List.length_range] using hlen)
        simpa [keepIndicesOf] using this
      have hall : ∀ i ∈ List.range k,
          decide (i ∈ keepIndicesOf fs (g.editors.getD [])) = true := by
        intro i hi
        rw [hkr]
        simp only [decide_eq_true_eq, List.mem_range]
        exact lt_of_lt_of_le (List.mem_range.mp hi) hk
      rw [List.countP_eq_length_filter, List.filter_eq_self.mpr hall,
        List.length_range]
    · rw [filterGroup_of_removed fs g h0]
      simp only [hs, Option.map_some']
      congr 1
      apply List.countP_congr
      intro i _
      rw [oldToNew_isSome]
  · rw [List.countP_eq_length_filter]
    congr 1
    apply List.filter_congr
    intro i hi
    have hilt : i < (g.editors.getD []).length :=
      lt_of_lt_of_le (List.mem_range.mp hi) hk
    by_cases hq : (((g.editors.getD []).get? i).any (keepEditor fs)) = true
    · simp [keepIndicesOf, removedIndicesOf, List.mem_filter,
        List.mem_range, hilt, hq]
    · simp [keepIndicesOf, removedIndicesOf, List.mem_filter,
        List.mem_range, hilt, hq]

/-- Witness for C3, the spec concrete scenario D: editors [kept, missing]
with sticky 2 prunes to sticky 1. -/
theorem filterGroup_sticky_count_instance :
    (filterGroup (fun p => p == "/x")
      { gid := none,
        editors := some [⟨fileEditorInputId, .parsed (some "/x")⟩,
                         ⟨fileEditorInputId, .parsed (some "/gone")⟩],
        mru := some [0, 1], preview := none, sticky := some 2 }).1.sticky =
      some ((List.range 2).countP
        (fun i => decide (i ∈ keepIndicesOf (fun p => p == "/x")
          [⟨fileEditorInputId, .parsed (some "/x")⟩,
           ⟨fileEditorInputId, .parsed (some "/gone")⟩]))) :=
  (filterGroup_sticky_count (fun p => p == "/x")
    { gid := none,
      editors := some [⟨fileEditorInputId, .parsed (some "/x")⟩,
                       ⟨fileEditorInputId, .parsed (some "/gone")⟩],
      mru := some [0, 1], preview := none, sticky := some 2 }
    2 rfl (by decide)).1

/-- The outcome of the embedded-value parse used by the pruning pass. -/
def parseEditorPath : EditorValue → Option String
  | .malformed _ => none
  | .parsed p => p

/-- C4: an editor at index i is kept iff it is not a file editor, or its
embedded value yields no path, or the path exists; equivalently it is
removed exactly when it is a file editor whose value yields a path that
does not exist on the filesystem. -/
theorem keepEditor_characterization (fs : String → Bool)
    (editors : List SerializedEditorInput) (i : Nat)
    (e : SerializedEditorInput) (he : editors.get? i = some e) :
    (i ∈ keepIndicesOf fs editors ↔
      (e.id ≠ fileEditorInputId ∨ parseEditorPath e.value = none ∨
        ∃ p, parseEditorPath e.value = some p ∧ fs p = true)) ∧
    (i ∉ keepIndicesOf fs editors ↔
      (e.id = fileEditorInputId ∧
        ∃ p, parseEditorPath e.value = some p ∧ fs p = false)) := by
  have hilt : i < editors.length := by
    rcases List.get?_eq_some.mp he with ⟨h, _⟩
    exact h
  have hmem : i ∈ keepIndicesOf fs editors ↔ keepEditor fs e = true := by
    simp only [keepIndicesOf, List.mem_filter, List.mem_range, he,
      Option.any_some]
    simp [hilt]
  have hkeep : keepEditor fs e = true ↔
      (e.id ≠ fileEditorInputId ∨ parseEditorPath e.value = none ∨
        ∃ p, parseEditorPath e.value = some p ∧ fs p = true) := by
    rw [keepEditor]
    by_cases hid : e.id = fileEditorInputId
    · cases hv : e.value with
      | malformed raw => simp [hid, parseEditorPath]
      | parsed op =>
        cases op with
        | none => simp [hid, parseEditorPath]
        | some p =>
          cases hfs : fs p <;> simp [hid, parseEditorPath, hfs]
    · simp [hid]
  refine ⟨hmem.trans hkeep, ?_⟩
  rw [hmem, hkeep]
  constructor
  · intro hnot
    push_neg at hnot
    obtain ⟨h1, h2, h3⟩ := hnot
    refine ⟨h1, ?_⟩
    cases hv : parseEditorPath e.value with
    | none => exact absurd hv h2
    | some p =>
      refine ⟨p, rfl, ?_⟩
      cases hb : fs p
      · rfl
      · exact absurd hb (h3 p hv)
  · rintro ⟨hid, p, hp, hfs⟩
    push_neg
    refine ⟨hid, ?_, ?_⟩
    · rw [hp]
      simp
    · intro q hq
      rw [hp] at hq
      injection hq with hpq
      rw [← hpq, hfs]
      simp

/-- Witness for C4 at a concrete file editor whose path exists. -/
theorem keepEditor_characterization_instance :
    (0 ∈ keepIndicesOf (fun p => p == "/x")
        [⟨fileEditorInputId, .parsed (some "/x")⟩] ↔
      ((⟨fileEditorInputId, .parsed (some "/x")⟩ :
          SerializedEditorInput).id ≠ fileEditorInputId ∨
        parseEditorPath (.parsed (some "/x")) = none ∨
        ∃ p, parseEditorPath (.parsed (some "/x")) = some p ∧
          (fun q => q == "/x") p = true)) ∧
    (0 ∉ keepIndicesOf (fun p => p == "/x")
        [⟨fileEditorInputId, .parsed (some "/x")⟩] ↔
      ((⟨fileEditorInputId, .parsed (some "/x")⟩ :
          SerializedEditorInput).id = fileEditorInputId ∧
        ∃ p, parseEditorPath (.parsed (some "/x")) = some p ∧
          (fun q => q == "/x") p = false)) :=
  keepEditor_characterization (fun p => p == "/x")
    [⟨fileEditorInputId, .parsed (some "/x")⟩] 0
    ⟨fileEditorInputId, .parsed (some "/x")⟩ rfl

theorem scrubGroup_filterGroup (fs : String → Bool)
    (g : SerializedEditorGroupModel) :
    scrubGroup (filterGroup fs g).1 = scrubGroup g := by
  by_cases h0 : (g.editors.getD []).length -
      (keepIndicesOf fs (g.editors.getD [])).length = 0
  · rw [filterGroup_of_none_removed fs g h0]
  · rw [filterGroup_of_removed fs g h0]
    rfl

theorem scrubNode_walkNode (fs : String → Bool) (n : SerializedNode) :
    scrubNode (walkNode fs n).1 = scrubNode n :=
  @SerializedNode.rec
    (fun n => scrubNode (walkNode fs n).1 = scrubNode n)
    (fun l => scrubNodeList (walkNodeList fs l).1 = scrubNodeList l)
    (fun data size => by
      simp [walkNode, scrubNode, scrubGroup_filterGroup])
    (fun children size ih => by
      simp [walkNode, scrubNode, ih])
    (fun tag size => by simp [walkNode])
    (by simp [walkNodeList])
    (fun h t ih1 ih2 => by
      simp [walkNodeList, scrubNodeList, ih1, ih2])
    n

/-- C9: the pruning pass is a frame transformation: scrubbing the four
rewritable group fields of the output state gives the scrubbed input
state, so the pass never adds, removes, resizes or retypes a tree node,
never changes branch children count or order, group ids, grid dimensions,
or the top-level fields outside the grid; a fully emptied leaf stays a
leaf.  The explicit conjuncts restate the top-level field preservation. -/
theorem filterEditorsInState_frame (fs : String → Bool)
    (st : EditorPartState) :
    scrubState (filterEditorsInState fs st).1 = scrubState st ∧
    (filterEditorsInState fs st).1.activeGroup = st.activeGroup ∧
    (filterEditorsInState fs st).1.mostRecentActiveGroups =
      st.mostRecentActiveGroups ∧
    (filterEditorsInState fs st).1.serializedGrid.map SerializedGrid.width =
      st.serializedGrid.map SerializedGrid.width ∧
    (filterEditorsInState fs st).1.serializedGrid.map SerializedGrid.height =
      st.serializedGrid.map SerializedGrid.height ∧
    (filterEditorsInState fs st).1.serializedGrid.map
        SerializedGrid.orientation =
      st.serializedGrid.map SerializedGrid.orientation := by
  cases hg : st.serializedGrid with
  | none => simp [filterEditorsInState, hg]
  | some grid =>
    cases hr : grid.root with
    | none => simp [filterEditorsInState, hg, hr]
    | some root =>
      refine ⟨?_, ?_, ?_, ?_, ?_, ?_⟩ <;>
        simp [filterEditorsInState, hg, hr, scrubState, scrubGrid,
          scrubNode_walkNode]

/-! ## MD5 (the `createHash("md5")` collaborator used by
computeWorkspaceId), implemented per RFC 1321 over the UTF-8 bytes of the
concatenated updates. -/

/-- Per-round left-rotation amounts of MD5. -/
def md5ShiftTable : List Nat :=
  [7, 12, 17, 22, 7, 12, 17, 22, 7, 12, 17, 22, 7, 12, 17, 22,
   5, 9, 14, 20, 5, 9, 14, 20, 5, 9, 14, 20, 5, 9, 14, 20,
   4, 11, 16, 23, 4, 11, 16, 23, 4, 11, 16, 23, 4, 11, 16, 23,
   6, 10, 15, 21, 6, 10, 15, 21, 6, 10, 15, 21, 6, 10, 15, 21]

/-- The 64 MD5 sine-derived additive constants. -/
def md5KTable : List Nat :=
  [0xd76aa478, 0xe8c7b756, 0x242070db, 0xc1bdceee,
   0xf57c0faf, 0x4787c62a, 0xa8304613, 0xfd469501,
   0x698098d8, 0x8b44f7af, 0xffff5bb1, 0x895cd7be,
   0x6b901122, 0xfd987193, 0xa679438e, 0x49b40821,
   0xf61e2562, 0xc040b340, 0x265e5a51, 0xe9b6c7aa,
   0xd62f105d, 0x02441453, 0xd8a1e681, 0xe7d3fbc8,
   0x21e1cde6, 0xc33707d6, 0xf4d50d87, 0x455a14ed,
   0xa9e3e905, 0xfcefa3f8, 0x676f02d9, 0x8d2a4c8a,
   0xfffa3942, 0x8771f681, 0x6d9d6122, 0xfde5380c,
   0xa4beea44, 0x4bdecfa9, 0xf6bb4b60, 0xbebfbc70,
   0x289b7ec6, 0xeaa127fa, 0xd4ef3085, 0x04881d05,
   0xd9d4d039, 0xe6db99e5, 0x1fa27cf8, 0xc4ac5665,
   0xf4292244, 0x432aff97, 0xab9423a7, 0xfc93a039,
   0x655b59c3, 0x8f0ccc92, 0xffeff47d, 0x85845dd1,
   0x6fa87e4f, 0xfe2ce6e0, 0xa3014314, 0x4e0811a1,
   0xf7537e82, 0xbd3af235, 0x2ad7d2bb, 0xeb86d391]

/-- Truncation to a 32-bit word. -/
def w32 (x : Nat) : Nat := x % 4294967296

/-- 32-bit bitwise complement (inputs are already 32-bit words). -/
def not32 (x : Nat) : Nat := Nat.xor x 4294967295

/-- 32-bit left rotation. -/
def rotl32 (x s : Nat) : Nat :=
  w32 (Nat.lor (Nat.shiftLeft x s) (Nat.shiftRight x (32 - s)))

/-- UTF-8 encoding of one character code point. -/
def encodeChar (c : Char) : List Nat :=
  let n := c.toNat
  if n < 128 then [n]
  else if n < 2048 then [192 + n / 64, 128 + n % 64]
  else if n < 65536 then
    [224 + n / 4096, 128 + (n / 64) % 64, 128 + n % 64]
  else
    [240 + n / 262144, 128 + (n / 4096) % 64, 128 + (n / 64) % 64,
     128 + n % 64]

/-- UTF-8 bytes of a string. -/
def utf8Bytes (s : String) : List Nat := s.data.flatMap encodeChar

/-- MD5 padding: append 0x80, zero-pad to 56 mod 64, then the bit length
as eight little-endian bytes. -/
def padMessage (m : List Nat) : List Nat :=
  let bitLen := (8 * m.length) % 18446744073709551616
  let zeroCount := (119 - (m.length % 64)) % 64
  m ++ [128] ++ List.replicate zeroCount 0
    ++ (List.range 8).map (fun i => bitLen / (256 ^ i) % 256)

/-- Little-endian 32-bit word `j` of a 64-byte block. -/
def leWord (block : List Nat) (j : Nat) : Nat :=
  block.getD (4 * j) 0 + 256 * block.getD (4 * j + 1) 0
    + 65536 * block.getD (4 * j + 2) 0
    + 16777216 * block.getD (4 * j + 3) 0

/-- One MD5 compression round step. -/
def md5Step (block : List Nat) (st : Nat × Nat × Nat × Nat) (i : Nat) :
    Nat × Nat × Nat × Nat :=
  let a := st.1
  let b := st.2.1
  let c := st.2.2.1
  let d := st.2.2.2
  let fg : Nat × Nat :=
    if i < 16 then
      (Nat.lor (Nat.land b c) (Nat.land (not32 b) d), i)
    else if i < 32 then
      (Nat.lor (Nat.land d b) (Nat.land (not32 d) c), (5 * i + 1) % 16)
    else if i < 48 then
      (Nat.xor b (Nat.xor c d), (3 * i + 5) % 16)
    else
      (Nat.xor c (Nat.lor b (not32 d)), (7 * i) % 16)
  let f := w32 (fg.1 + a + md5KTable.getD i 0 + leWord block fg.2)
  (d, w32 (b + rotl32 f (md5ShiftTable.getD i 0)), b, c)

/-- MD5 compression of one 64-byte block. -/
def processBlock (st : Nat × Nat × Nat × Nat) (block : List Nat) :
    Nat × Nat × Nat × Nat :=
  let r := (List.range 64).foldl (md5Step block) st
  (w32 (st.1 + r.1), w32 (st.2.1 + r.2.1), w32 (st.2.2.1 + r.2.2.1),
   w32 (st.2.2.2 + r.2.2.2))

/-- Split a padded message into 64-byte blocks (fuel-driven structural
recursion; the fuel is the message length). -/
def toBlocks : Nat → List Nat → List (List Nat)
  | 0, _ => []
  | _, [] => []
  | fuel + 1, l => l.take 64 :: toBlocks fuel (l.drop 64)

/-- Four little-endian bytes of a 32-bit word. -/
def leBytes4 (x : Nat) : List Nat :=
  [x % 256, x / 256 % 256, x / 65536 % 256, x / 16777216 % 256]

/-- The 16 MD5 digest bytes of a byte message. -/
def md5Bytes (msg : List Nat) : List Nat :=
  let padded := padMessage msg
  let r := (toBlocks padded.length padded).foldl processBlock
    (0x67452301, 0xefcdab89, 0x98badcfe, 0x10325476)
  leBytes4 r.1 ++ leBytes4 r.2.1 ++ leBytes4 r.2.2.1 ++ leBytes4 r.2.2.2

/-- One lowercase hexadecimal digit. -/
def hexDigit (n : Nat) : Char :=
  if n < 10 then Char.ofNat (48 + n) else Char.ofNat (87 + n)

/-- Lowercase hexadecimal MD5 digest of the UTF-8 bytes of a string,
modelling `createHash("md5").update(...).digest("hex")`. -/
def md5Hex (s : String) : String :=
  String.mk ((md5Bytes (utf8Bytes s)).flatMap
    (fun b => [hexDigit (b / 16 % 16), hexDigit (b % 16)]))

/-! ## Workspace identity and state migration
(src/services/vscode-workspace.ts) -/

/-- Result of `stat(folderPath, { bigint: true })` for an existing folder:
the inode number and the birth time in nanoseconds. -/
structure FolderStats where
  ino : Nat
  birthtimeNs : Nat
deriving DecidableEq, Repr

/-- The value of `platform()`. -/
inductive PlatformTag where
  | linux
  | darwin
  | otherOS (name : String)
deriving DecidableEq, Repr

/-- The ambient world a migration run sees: platform, home directory, the
WCT_VSCODE_STORAGE_PATH override, the `stat` results (none meaning the
folder does not exist and `stat` throws), and existence of paths checked
with `access`/`Bun.file(...).exists()`. -/
structure World where
  platformTag : PlatformTag
  homedir : String
  envStoragePath : Option String
  statFolder : String → Option FolderStats
  pathExists : String → Bool

/-- `getVSCodeStoragePath`: the env override when set and non-empty
(JavaScript truthiness), else the platform-specific directory, else null
on unsupported platforms. -/
def getVSCodeStoragePath (w : World) : Option String :=
  let fromPlatform : Option String :=
    match w.platformTag with
    | .darwin =>
      some (w.homedir ++ "/Library/Application Support/Code/User/workspaceStorage")
    | .linux => some (w.homedir ++ "/.config/Code/User/workspaceStorage")
    | .otherOS _ => none
  match w.envStoragePath with
  | some p => if p = "" then fromPlatform else some p
  | none => fromPlatform

/-- `computeWorkspaceId`: md5 over the folder path concatenated with the
platform fingerprint (inode as a decimal string on linux; birth time in
rounded milliseconds on darwin — the floating division of the source is
modelled as exact rounding half-up of nsec/10^6).  `Except.error` models
the thrown errors (stat of a missing folder; unsupported platform). -/
def computeWorkspaceId (w : World) (folderPath : String) :
    Except String String :=
  match w.statFolder folderPath with
  | none => .error ("ENOENT: no such file or directory, stat " ++ folderPath)
  | some st =>
    match w.platformTag with
    | .linux => .ok (md5Hex (folderPath ++ toString st.ino))
    | .darwin =>
      let ns := st.birthtimeNs
      let sec := ns / 1000000000
      let nsec := ns % 1000000000
      let ctime := sec * 1000 + (nsec + 500000) / 1000000
      .ok (md5Hex (folderPath ++ toString ctime))
    | .otherOS name => .error ("Unsupported platform: " ++ name)

/-- `workspaceExists`: false when the storage path is null, else an
existence check on `storagePath/workspaceId`. -/
def workspaceExists (w : World) (workspaceId : String) : Bool :=
  match getVSCodeStoragePath w with
  | none => false
  | some sp => w.pathExists (sp ++ "/" ++ workspaceId)

/-- `SyncResult` of `syncWorkspaceState`. -/
structure SyncResult where
  success : Bool
  skipped : Option Bool
  error : Option String
  mainWorkspaceId : Option String
  worktreeWorkspaceId : Option String
deriving DecidableEq, Repr

/-- Observable side effects of a migration run, in program order: folder
stats, storage-directory existence checks, the recursive storage copy,
the pointer-file write, and the four per-database rewrite passes. -/
inductive SyncAction where
  | statFolder (path : String)
  | accessCheck (path : String)
  | copyStorage (sourceId targetId : String)
  | writeWorkspaceJson (targetId folderPath : String)
  | rewritePaths (dbFile : String)
  | filterEditors (dbFile : String)
  | clearTerminal (dbFile : String)
  | clearAgentSessions (dbFile : String)
deriving DecidableEq, Repr

/-- The four best-effort rewrite passes applied to one database file when
it exists. -/
def dbPassActions (w : World) (dbFile : String) : List SyncAction :=
  if w.pathExists dbFile then
    [.rewritePaths dbFile, .filterEditors dbFile, .clearTerminal dbFile,
     .clearAgentSessions dbFile]
  else []

/-- `syncWorkspaceState`, with its filesystem effects made explicit as an
action trace: unsupported platform fails first; a missing source storage
directory is fatal; an existing target storage directory short-circuits
to a skipped success before any copy; otherwise copy storage, write the
pointer file, and run the rewrite passes on the state database and its
backup when present. -/
def syncWorkspaceState (w : World) (mainRepoPath worktreePath : String) :
    SyncResult × List SyncAction :=
  match getVSCodeStoragePath w with
  | none => (⟨false, none, some "Unsupported platform", none, none⟩, [])
  | some storagePath =>
    match computeWorkspaceId w mainRepoPath with
    | .error e => (⟨false, none, some e, none, none⟩,
        [.statFolder mainRepoPath])
    | .ok mainWorkspaceId =>
      let t1 : List SyncAction := [.statFolder mainRepoPath,
        .accessCheck (storagePath ++ "/" ++ mainWorkspaceId)]
      if workspaceExists w mainWorkspaceId then
        match computeWorkspaceId w worktreePath with
        | .error e => (⟨false, none, some e, none, none⟩,
            t1 ++ [.statFolder worktreePath])
        | .ok worktreeWorkspaceId =>
          let t2 := t1 ++ [.statFolder worktreePath,
            .accessCheck (storagePath ++ "/" ++ worktreeWorkspaceId)]
          if workspaceExists w worktreeWorkspaceId then
            (⟨true, some true, none, some mainWorkspaceId,
              some worktreeWorkspaceId⟩, t2)
          else
            let dbFile := storagePath ++ "/" ++ worktreeWorkspaceId
              ++ "/state.vscdb"
            let backupDbFile := storagePath ++ "/" ++ worktreeWorkspaceId
              ++ "/state.vscdb.backup"
            (⟨true, none, none, some mainWorkspaceId,
              some worktreeWorkspaceId⟩,
             t2 ++ [.copyStorage mainWorkspaceId worktreeWorkspaceId,
               .writeWorkspaceJson worktreeWorkspaceId worktreePath]
              ++ dbPassActions w dbFile ++ dbPassActions w backupDbFile)
      else
        (⟨false, none,
          some "Main repo workspace storage not found. Open main repo in VS Code first.",
          none, none⟩, t1)

/-- C10: when the storage path resolves to null (platform neither linux
nor darwin and no override set), syncWorkspaceState fails with the
Unsupported platform error immediately: no identity computation, no
folder read, no filesystem effect (empty action trace). -/
theorem syncWorkspaceState_unsupported (w : World)
    (mainRepoPath worktreePath : String)
    (henv : w.envStoragePath = none)
    (hplat : ∃ name, w.platformTag = .otherOS name) :
    syncWorkspaceState w mainRepoPath worktreePath =
      (⟨false, none, some "Unsupported platform", none, none⟩, []) := by
  obtain ⟨name, hp⟩ := hplat
  simp [syncWorkspaceState, getVSCodeStoragePath, henv, hp]

/-- Witness for C10 on a win32-like world. -/
theorem syncWorkspaceState_unsupported_instance :
    syncWorkspaceState
      { platformTag := .otherOS "win32", homedir := "/h",
        envStoragePath := none,
        statFolder := fun _ => some ⟨1, 0⟩, pathExists := fun _ => true }
      "/main" "/wt" =
      (⟨false, none, some "Unsupported platform", none, none⟩, []) :=
  syncWorkspaceState_unsupported _ "/main" "/wt" rfl ⟨"win32", rfl⟩

/-- The linux storage path of the worlds used below. -/
def c5StoragePath : String := "/h/.config/Code/User/workspaceStorage"

/-- A world where the target worktree storage directory already exists
but the main repo storage directory does not. -/
def c5World : World :=
  { platformTag := .linux
    homedir := "/h"
    envStoragePath := none
    statFolder := fun p =>
      if p = "/main" then some ⟨1, 0⟩
      else if p = "/wt" then some ⟨2, 0⟩ else none
    pathExists := fun p =>
      p == c5StoragePath ++ "/" ++ md5Hex ("/wt" ++ toString (2 : Nat)) }

set_option maxRecDepth 10000 in
/-- C5 counterexample: the claim quantifies over every source and target
folder, but when the source storage directory is missing the source check
fires first, so a run whose target storage directory already exists still
returns a failure rather than a skipped success. -/
theorem syncWorkspaceState_skip_claim_fails :
    (∃ tid, computeWorkspaceId c5World "/wt" = .ok tid ∧
      workspaceExists c5World tid = true) ∧
    (syncWorkspaceState c5World "/main" "/wt").1 =
      ⟨false, none,
        some "Main repo workspace storage not found. Open main repo in VS Code first.",
        none, none⟩ :=
  ⟨⟨md5Hex ("/wt" ++ toString (2 : Nat)), rfl, by decide⟩, by decide⟩

/-- C5 amended: when additionally the storage path resolves, the source
identity computation succeeds and the source storage directory exists,
an already-existing target storage directory yields success with
skipped=true, both identities, and a trace with no copy, pointer write or
database rewrite. -/
theorem syncWorkspaceState_skip (w : World)
    (mainRepoPath worktreePath sp mainId wtId : String)
    (hsp : getVSCodeStoragePath w = some sp)
    (hmain : computeWorkspaceId w mainRepoPath = .ok mainId)
    (hmex : workspaceExists w mainId = true)
    (hwt : computeWorkspaceId w worktreePath = .ok wtId)
    (hwex : workspaceExists w wtId = true) :
    (syncWorkspaceState w mainRepoPath worktreePath).1 =
      ⟨true, some true, none, some mainId, some wtId⟩ ∧
    ∀ a ∈ (syncWorkspaceState w mainRepoPath worktreePath).2,
      (∃ p, a = .statFolder p) ∨ ∃ p, a = .accessCheck p := by
  have hres : syncWorkspaceState w mainRepoPath worktreePath =
      (⟨true, some true, none, some mainId, some wtId⟩,
       [.statFolder mainRepoPath, .accessCheck (sp ++ "/" ++ mainId),
        .statFolder worktreePath, .accessCheck (sp ++ "/" ++ wtId)]) := by
    rw [syncWorkspaceState]
    rw [hsp, hmain]
    simp [hmex, hwt, hwex]
  rw [hres]
  refine ⟨rfl, ?_⟩
  intro a ha
  simp only [List.mem_cons, List.not_mem_nil, or_false] at ha
  rcases ha with rfl | rfl | rfl | rfl
  · exact Or.inl ⟨_, rfl⟩
  · exact Or.inr ⟨_, rfl⟩
  · exact Or.inl ⟨_, rfl⟩
  · exact Or.inr ⟨_, rfl⟩

/-- A world where both the main and the worktree storage directories
exist. -/
def c5SkipWorld : World :=
  { platformTag := .linux
    homedir := "/h"
    envStoragePath := none
    statFolder := fun p =>
      if p = "/main" then some ⟨1, 0⟩
      else if p = "/wt" then some ⟨2, 0⟩ else none
    pathExists := fun p =>
      p == c5StoragePath ++ "/" ++ md5Hex ("/main" ++ toString (1 : Nat)) ||
      p == c5StoragePath ++ "/" ++ md5Hex ("/wt" ++ toString (2 : Nat)) }

set_option maxRecDepth 10000 in
/-- Witness for the amended C5: a concrete skipped re-entry. -/
theorem syncWorkspaceState_skip_instance :
    (syncWorkspaceState c5SkipWorld "/main" "/wt").1 =
      ⟨true, some true, none,
        some (md5Hex ("/main" ++ toString (1 : Nat))),
        some (md5Hex ("/wt" ++ toString (2 : Nat)))⟩ ∧
    ∀ a ∈ (syncWorkspaceState c5SkipWorld "/main" "/wt").2,
      (∃ p, a = .statFolder p) ∨ ∃ p, a = .accessCheck p :=
  syncWorkspaceState_skip c5SkipWorld "/main" "/wt" c5StoragePath
    (md5Hex ("/main" ++ toString (1 : Nat)))
    (md5Hex ("/wt" ++ toString (2 : Nat)))
    (by decide) rfl (by decide) rfl (by decide)

theorem length_md5Bytes (msg : List Nat) : (md5Bytes msg).length = 16 := by
  simp [md5Bytes, leBytes4]

theorem length_flatMap_pair {α β : Type} (l : List α) (f g : α → β) :
    (l.flatMap (fun b => [f b, g b])).length = 2 * l.length := by
  induction l with
  | nil => rfl
  | cons a t ih => simp [ih]; omega

theorem hexDigit_mem (n : Nat) (h : n < 16) :
    hexDigit n ∈ ("0123456789abcdef" : String).data := by
  interval_cases n <;> decide

theorem md5Hex_length (s : String) : (md5Hex s).length = 32 := by
  show (String.mk ((md5Bytes (utf8Bytes s)).flatMap
    (fun b => [hexDigit (b / 16 % 16), hexDigit (b % 16)]))).length = 32
  rw [show ∀ l : List Char, (String.mk l).length = l.length from fun _ => rfl]
  rw [length_flatMap_pair, length_md5Bytes]

theorem md5Hex_chars (s : String) :
    ∀ c ∈ (md5Hex s).data, c ∈ ("0123456789abcdef" : String).data := by
  intro c hc
  have hc' : c ∈ (md5Bytes (utf8Bytes s)).flatMap
      (fun b => [hexDigit (b / 16 % 16), hexDigit (b % 16)]) := hc
  rw [List.mem_flatMap] at hc'
  obtain ⟨b, _, hcb⟩ := hc'
  simp only [List.mem_cons, List.not_mem_nil, or_false] at hcb
  rcases hcb with rfl | rfl
  · exact hexDigit_mem _ (Nat.mod_lt _ (by norm_num))
  · exact hexDigit_mem _ (Nat.mod_lt _ (by norm_num))

/-- A world with two distinct existing folders whose path and inode
fingerprints concatenate to the same md5 input string. -/
def c8World : World :=
  { platformTag := .linux
    homedir := "/h"
    envStoragePath := none
    statFolder := fun p =>
      if p = "/a/b" then some ⟨12, 0⟩
      else if p = "/a/b1" then some ⟨2, 0⟩ else none
    pathExists := fun _ => false }

/-- C8 counterexample: two distinct existing folders can receive the same
identity because the hash input is the bare concatenation of path and
fingerprint: "/a/b" with inode 12 and "/a/b1" with inode 2 both hash
"/a/b12". -/
theorem computeWorkspaceId_distinct_fails :
    ("/a/b" : String) ≠ "/a/b1" ∧
    (c8World.statFolder "/a/b").isSome = true ∧
    (c8World.statFolder "/a/b1").isSome = true ∧
    computeWorkspaceId c8World "/a/b" = computeWorkspaceId c8World "/a/b1" := by
  refine ⟨by decide, by decide, by decide, ?_⟩
  show Except.ok (md5Hex ("/a/b" ++ toString (12 : Nat))) =
    Except.ok (md5Hex ("/a/b1" ++ toString (2 : Nat)))
  have h : ("/a/b" ++ toString (12 : Nat) : String) =
      "/a/b1" ++ toString (2 : Nat) := by decide
  rw [h]

/-- C8 amended: the identity is a deterministic function of the folder
path and its stat fingerprint alone (same platform and same stat result
give the same identity on repeated calls), and a successful identity is
always a 32-character lowercase-hex string; but distinct folder paths do
not guarantee distinct identities, because the hash input is the plain
concatenation of path and fingerprint (third conjunct: an explicit
collision between two distinct existing folders). -/
theorem computeWorkspaceId_amended :
    (∀ (w w' : World) (p : String), w.platformTag = w'.platformTag →
      w.statFolder p = w'.statFolder p →
      computeWorkspaceId w p = computeWorkspaceId w' p) ∧
    (∀ (w : World) (p wid : String), computeWorkspaceId w p = .ok wid →
      wid.length = 32 ∧
        ∀ c ∈ wid.data, c ∈ ("0123456789abcdef" : String).data) ∧
    (("/a/b" : String) ≠ "/a/b1" ∧
      (c8World.statFolder "/a/b").isSome = true ∧
      (c8World.statFolder "/a/b1").isSome = true ∧
      computeWorkspaceId c8World "/a/b" =
        computeWorkspaceId c8World "/a/b1") := by
  refine ⟨?_, ?_, ?_⟩
  · intro w w' p hplat hstat
    rw [computeWorkspaceId, computeWorkspaceId, hstat, hplat]
  · intro w p wid hok
    rw [computeWorkspaceId] at hok
    cases hst : w.statFolder p with
    | none => rw [hst] at hok; exact absurd hok (by simp)
    | some st =>
      rw [hst] at hok
      cases hpl : w.platformTag with
      | linux =>
        rw [hpl] at hok
        injection hok with hw
        rw [← hw]
        exact ⟨md5Hex_length _, md5Hex_chars _⟩
      | darwin =>
        rw [hpl] at hok
        injection hok with hw
        rw [← hw]
        exact ⟨md5Hex_length _, md5Hex_chars _⟩
      | otherOS name => rw [hpl] at hok; exact absurd hok (by simp)
  · refine ⟨by decide, by decide, by decide, ?_⟩
    show Except.ok (md5Hex ("/a/b" ++ toString (12 : Nat))) =
      Except.ok (md5Hex ("/a/b1" ++ toString (2 : Nat)))
    have h : ("/a/b" ++ toString (12 : Nat) : String) =
        "/a/b1" ++ toString (2 : Nat) := by decide
    rw [h]

set_option maxRecDepth 10000 in
/-- Witness for the amended C8: determinism and the 32-hex format at a
concrete existing folder. -/
theorem computeWorkspaceId_amended_instance :
    computeWorkspaceId c8World "/a/b" = computeWorkspaceId c8World "/a/b" ∧
    (md5Hex ("/a/b" ++ toString (12 : Nat))).length = 32 ∧
    ∀ c ∈ (md5Hex ("/a/b" ++ toString (12 : Nat))).data,
      c ∈ ("0123456789abcdef" : String).data :=
  ⟨computeWorkspaceId_amended.1 c8World c8World "/a/b" rfl rfl,
   (computeWorkspaceId_amended.2.1 c8World "/a/b"
     (md5Hex ("/a/b" ++ toString (12 : Nat))) rfl).1,
   (computeWorkspaceId_amended.2.1 c8World "/a/b"
     (md5Hex ("/a/b" ++ toString (12 : Nat))) rfl).2⟩

/-! ## Transient-state clearing passes (clearTerminalState and
clearExternalAgentSessions in src/services/vscode-workspace.ts) -/

/-- One entry of the chat-session index: the external flag (absent flags
are falsy, hence false) plus the rest of the entry payload, which the
edit never touches. -/
structure ChatSessionEntry where
  isExternal : Bool
  payload : String
deriving DecidableEq, Repr

/-- A value of the ItemTable, as seen through `JSON.parse`: `raw` is a
value on which the parse throws; `chatIndex` is a parsed chat-session
index object whose `entries` field may be absent. -/
inductive ItemValue where
  | raw (s : String)
  | chatIndex (entries : Option (List (String × ChatSessionEntry)))
deriving DecidableEq, Repr

/-- The single (key, value) table of the state database. -/
abbrev ItemTable := List (String × ItemValue)

/-- A state database: `none` models a corrupt file or missing ItemTable
(every query throws, caught by the surrounding try). -/
abbrev StateDb := Option ItemTable

/-- The fixed terminal-panel keys deleted by clearTerminalState. -/
def TERMINAL_KEYS_TO_CLEAR : List String :=
  ["terminal", "terminal.integrated.layoutInfo",
   "terminal.numberOfVisibleViews"]

/-- The fixed agent-session keys deleted by clearExternalAgentSessions. -/
def AGENT_SESSION_KEYS_TO_CLEAR : List String :=
  ["agentSessions.state.cache", "agentSessions.readDateBaseline2"]

/-- The key of the chat-session index value. -/
def chatIndexKey : String := "chat.ChatSessionStore.index"

/-- `clearTerminalState`: delete the rows with a terminal key, returning
the number of deleted rows; 0 on a corrupt database. -/
def clearTerminalState (db : StateDb) : StateDb × Nat :=
  match db with
  | none => (none, 0)
  | some rows =>
    (some (rows.filter (fun r => !(TERMINAL_KEYS_TO_CLEAR.contains r.1))),
     rows.countP (fun r => TERMINAL_KEYS_TO_CLEAR.contains r.1))

/-- The table after the agent-session key deletion. -/
def afterAgentDelete (rows : ItemTable) : ItemTable :=
  rows.filter (fun r => !(AGENT_SESSION_KEYS_TO_CLEAR.contains r.1))

/-- `clearExternalAgentSessions`: delete the agent-session rows, then
look up the chat-session index; if its value parses and has entries,
drop the entries flagged external and, when at least one was dropped,
write the value back.  Returns deleted rows plus removed entries; when
the index value fails to parse the surrounding catch returns 0 (the
deletions are already committed); 0 on a corrupt database. -/
def clearExternalAgentSessions (db : StateDb) : StateDb × Nat :=
  match db with
  | none => (none, 0)
  | some rows =>
    let afterDelete := afterAgentDelete rows
    let deleted := rows.countP
      (fun r => AGENT_SESSION_KEYS_TO_CLEAR.contains r.1)
    match afterDelete.find? (fun r => r.1 == chatIndexKey) with
    | none => (some afterDelete, deleted)
    | some row =>
      match row.2 with
      | .raw _ => (some afterDelete, 0)
      | .chatIndex none => (some afterDelete, deleted)
      | .chatIndex (some entries) =>
        let removed := entries.countP (fun e => e.2.isExternal)
        if removed > 0 then
          (some (afterDelete.map (fun r =>
            if r.1 == chatIndexKey then
              (r.1, .chatIndex (some (entries.filter
                (fun e => !e.2.isExternal))))
            else r)), deleted + removed)
        else (some afterDelete, deleted)

/-- C6 counterexample: a database with no agent-session rows and one
chat-session index row holding two external entries: zero rows are
deleted and exactly one row is structurally modified, yet the pass
returns 2 — the count adds removed index entries, not modified rows. -/
theorem clearExternalAgentSessions_count_fails :
    clearExternalAgentSessions
      (some [(chatIndexKey,
        .chatIndex (some [("e1", ⟨true, "a"⟩), ("e2", ⟨true, "b"⟩)]))]) =
      (some [(chatIndexKey, .chatIndex (some []))], 2) ∧
    ([(chatIndexKey, ItemValue.chatIndex
        (some [("e1", ⟨true, "a"⟩), ("e2", ⟨true, "b"⟩)]))] :
      ItemTable).countP
        (fun r => AGENT_SESSION_KEYS_TO_CLEAR.contains r.1) = 0 ∧
    (([(chatIndexKey, ItemValue.chatIndex
        (some [("e1", ⟨true, "a"⟩), ("e2", ⟨true, "b"⟩)]))] :
      ItemTable).zip
      [(chatIndexKey, ItemValue.chatIndex (some []))]).countP
        (fun rr => rr.1 != rr.2) = 1 ∧
    (2 : Nat) ≠ 0 + 1 := by decide

theorem countP_eq_length_sub_filter_not {α : Type} (p : α → Bool)
    (l : List α) :
    l.countP p = l.length - (l.filter (fun a => !(p a))).length := by
  induction l with
  | nil => rfl
  | cons a t ih =>
    have hle := List.length_filter_le (fun a => !(p a)) t
    cases hp : p a <;>
      simp [List.countP_cons, List.filter_cons, hp, ih] <;> omega

theorem find?_map_replace (l : ItemTable) (k : String) (v' : ItemValue)
    (row0 : String × ItemValue)
    (hf : l.find? (fun r => r.1 == k) = some row0) :
    (l.map (fun r => if r.1 == k then (r.1, v') else r)).find?
      (fun r => r.1 == k) = some (k, v') := by
  induction l with
  | nil => simp [List.find?] at hf
  | cons a t ih =>
    by_cases hk : a.1 = k
    · simp only [List.map_cons, List.find?]
      rw [if_pos (by simpa using hk)]
      simp [hk]
    · have hbk : (a.1 == k) = false := by simpa using hk
      rw [List.find?_cons_of_neg _ (by simp [hbk])] at hf
      simp only [List.map_cons]
      rw [if_neg (by simp [hbk])]
      rw [List.find?_cons_of_neg _ (by simp [hbk])]
      exact ih hf

/-- C6 amended: both passes return 0 on a corrupt database or missing
table; clearTerminalState returns exactly the number of deleted rows
(the length difference) and deletes exactly the terminal-key rows;
clearExternalAgentSessions returns the deleted agent-session rows plus
the number of external entries removed from the chat-session index value
(not the number of structurally modified rows), and the structural edit
leaves exactly the non-external entries, provided the index value, when
found, parses with an entries object. -/
theorem clear_passes_amended :
    (clearTerminalState none = (none, 0) ∧
      clearExternalAgentSessions none = (none, 0)) ∧
    (∀ rows : ItemTable, ∃ out,
      clearTerminalState (some rows) =
        (some out, rows.length - out.length) ∧
      ∀ r, r ∈ out ↔ (r ∈ rows ∧ ¬ r.1 ∈ TERMINAL_KEYS_TO_CLEAR)) ∧
    (∀ rows : ItemTable,
      (afterAgentDelete rows).find? (fun r => r.1 == chatIndexKey) = none →
      clearExternalAgentSessions (some rows) =
        (some (afterAgentDelete rows),
         rows.length - (afterAgentDelete rows).length)) ∧
    (∀ (rows : ItemTable) (entries : List (String × ChatSessionEntry)),
      (afterAgentDelete rows).find? (fun r => r.1 == chatIndexKey) =
        some (chatIndexKey, .chatIndex (some entries)) →
      (clearExternalAgentSessions (some rows)).2 =
        (rows.length - (afterAgentDelete rows).length) +
          entries.countP (fun e => e.2.isExternal) ∧
      ∃ out, (clearExternalAgentSessions (some rows)).1 = some out ∧
        out.find? (fun r => r.1 == chatIndexKey) =
          some (chatIndexKey, .chatIndex
            (some (entries.filter (fun e => !e.2.isExternal))))) := by
  have hdel : ∀ rows : ItemTable,
      rows.countP (fun r => AGENT_SESSION_KEYS_TO_CLEAR.contains r.1) =
        rows.length - (afterAgentDelete rows).length := by
    intro rows
    rw [afterAgentDelete]
    exact countP_eq_length_sub_filter_not _ rows
  refine ⟨⟨rfl, rfl⟩, ?_, ?_, ?_⟩
  · intro rows
    refine ⟨rows.filter (fun r => !(TERMINAL_KEYS_TO_CLEAR.contains r.1)),
      ?_, ?_⟩
    · rw [clearTerminalState]
      rw [countP_eq_length_sub_filter_not]
    · intro r
      have hcm : (TERMINAL_KEYS_TO_CLEAR.contains r.1 = true) ↔
          r.1 ∈ TERMINAL_KEYS_TO_CLEAR := by
        rw [show TERMINAL_KEYS_TO_CLEAR.contains r.1 =
          List.elem r.1 TERMINAL_KEYS_TO_CLEAR from rfl]
        exact List.elem_iff
      rw [List.mem_filter]
      constructor
      · rintro ⟨h1, h2⟩
        refine ⟨h1, fun hm => ?_⟩
        rw [hcm.mpr hm] at h2
        simp at h2
      · rintro ⟨h1, h2⟩
        refine ⟨h1, ?_⟩
        cases hc : TERMINAL_KEYS_TO_CLEAR.contains r.1
        · simp
        · exact absurd (hcm.mp hc) h2
  · intro rows hnone
    rw [clearExternalAgentSessions]
    simp only [hnone]
    rw [hdel rows]
  · intro rows entries hfind
    constructor
    · rw [clearExternalAgentSessions]
      simp only [hfind]
      by_cases hrem : entries.countP (fun e => e.2.isExternal) > 0
      · rw [if_pos hrem]
        rw [hdel rows]
      · rw [if_neg hrem]
        have h0 : entries.countP (fun e => e.2.isExternal) = 0 := by omega
        rw [hdel rows, h0]
        rfl
    · rw [clearExternalAgentSessions]
      simp only [hfind]
      by_cases hrem : entries.countP (fun e => e.2.isExternal) > 0
      · rw [if_pos hrem]
        exact ⟨_, rfl, find?_map_replace _ _ _ _ hfind⟩
      · rw [if_neg hrem]
        have h0 : entries.countP (fun e => e.2.isExternal) = 0 := by omega
        have hall : ∀ e ∈ entries, ¬ (e.2.isExternal = true) := by
          intro e he
          exact (List.countP_eq_zero.mp h0) e he
        have hfe : entries.filter (fun e => !e.2.isExternal) = entries := by
          apply List.filter_eq_self.mpr
          intro e he
          simp [hall e he]
        rw [hfe]
        exact ⟨_, rfl, hfind⟩

/-- Witness for the amended C6 at a concrete table with one agent row and
a chat index holding one external and one non-external entry. -/
theorem clear_passes_amended_instance :
    (clearExternalAgentSessions (some
        ([("agentSessions.state.cache", .raw "x"),
          (chatIndexKey, .chatIndex
            (some [("a", ⟨false, "p"⟩), ("b", ⟨true, "q"⟩)]))] :
          ItemTable))).2 =
      (([("agentSessions.state.cache", .raw "x"),
         (chatIndexKey, .chatIndex
           (some [("a", ⟨false, "p"⟩), ("b", ⟨true, "q"⟩)]))] :
          ItemTable).length -
        (afterAgentDelete
          [("agentSessions.state.cache", .raw "x"),
           (chatIndexKey, .chatIndex
             (some [("a", ⟨false, "p"⟩), ("b", ⟨true, "q"⟩)]))]).length) +
        ([("a", (⟨false, "p"⟩ : ChatSessionEntry)),
          ("b", ⟨true, "q"⟩)].countP (fun e => e.2.isExternal)) ∧
    ∃ out, (clearExternalAgentSessions (some
        ([("agentSessions.state.cache", .raw "x"),
          (chatIndexKey, .chatIndex
            (some [("a", ⟨false, "p"⟩), ("b", ⟨true, "q"⟩)]))] :
          ItemTable))).1 = some out ∧
      out.find? (fun r => r.1 == chatIndexKey) =
        some (chatIndexKey, .chatIndex
          (some ([("a", (⟨false, "p"⟩ : ChatSessionEntry)),
            ("b", ⟨true, "q"⟩)].filter (fun e => !e.2.isExternal)))) :=
  clear_passes_amended.2.2.2
    [("agentSessions.state.cache", .raw "x"),
     (chatIndexKey, .chatIndex
       (some [("a", ⟨false, "p"⟩), ("b", ⟨true, "q"⟩)]))]
    [("a", ⟨false, "p"⟩), ("b", ⟨true, "q"⟩)] (by decide)

end Wct
